import Mathlib

/-!
Verification of the Sennet agent (Rust) against its specification.

Shallow embedding conventions:
* Rust `u64`/`u32` values are modelled as `Nat`; where the source performs
  wrapping machine arithmetic, the embedding takes the result `% 2^64`
  (release-mode Rust `+=` wraps).
* Byte strings (`&[u8]`, `String::as_bytes`) are modelled as `List Nat`
  (each element a byte value); `&str` paths are modelled as `List Char`.
* Fallible Rust code (`Result`, `Option`, serde deserialization) is
  modelled with `Option` / `Except`.
-/

namespace Sennet

/-- Two to the 64, the modulus of `u64` arithmetic. -/
def U64MOD : Nat := 2 ^ 64

/-- Structure `PacketCounters` (src/agent/src/ebpf.rs, mirrored in sennet-common):
five `u64` counters. -/
structure PacketCounters where
  rx_packets : Nat
  rx_bytes : Nat
  tx_packets : Nat
  tx_bytes : Nat
  drop_count : Nat
deriving Repr, DecidableEq

/-- Rust `PacketCounters::default()`: all five counters zero. -/
def PacketCounters.default : PacketCounters :=
  ⟨0, 0, 0, 0, 0⟩

/-- The per-CPU accumulation loop of `sum_values` in
`EbpfManager::read_counters` (src/agent/src/ebpf.rs lines 537-548):
starting from `PacketCounters::default()`, add every CPU's slot value
field by field with `u64` (wrapping) addition. -/
def sum_values (cpus : List PacketCounters) : PacketCounters :=
  cpus.foldl
    (fun sum c =>
      { rx_packets := (sum.rx_packets + c.rx_packets) % U64MOD
        rx_bytes := (sum.rx_bytes + c.rx_bytes) % U64MOD
        tx_packets := (sum.tx_packets + c.tx_packets) % U64MOD
        tx_bytes := (sum.tx_bytes + c.tx_bytes) % U64MOD
        drop_count := (sum.drop_count + c.drop_count) % U64MOD })
    PacketCounters.default

/-- Method `EbpfManager::read_counters` (src/agent/src/ebpf.rs lines 529-561):
sum slot 0 (ingress) and slot 1 (egress) across CPUs, then take
`rx_packets`, `rx_bytes`, `drop_count` from the ingress sum and
`tx_packets`, `tx_bytes` from the egress sum.  The per-CPU values of the
two slots are passed in as lists (one entry per CPU). -/
def read_counters (cpus0 cpus1 : List PacketCounters) : PacketCounters :=
  let ingress := sum_values cpus0
  let egress := sum_values cpus1
  { rx_packets := ingress.rx_packets
    rx_bytes := ingress.rx_bytes
    tx_packets := egress.tx_packets
    tx_bytes := egress.tx_bytes
    drop_count := ingress.drop_count }

/-- Method `HeartbeatLoop::read_ebpf_counters` (src/agent/src/heartbeat.rs lines
128-159): accumulate `rx_packets`, `rx_bytes`, `drop_count` over the
slot-0 (ingress) CPU values and `tx_packets`, `tx_bytes` over the slot-1
(egress) CPU values, directly into one total. -/
def read_ebpf_counters (cpus0 cpus1 : List PacketCounters) : PacketCounters :=
  let total := PacketCounters.default
  let total := cpus0.foldl
    (fun t c =>
      { t with
        rx_packets := (t.rx_packets + c.rx_packets) % U64MOD
        rx_bytes := (t.rx_bytes + c.rx_bytes) % U64MOD
        drop_count := (t.drop_count + c.drop_count) % U64MOD })
    total
  let total := cpus1.foldl
    (fun t c =>
      { t with
        tx_packets := (t.tx_packets + c.tx_packets) % U64MOD
        tx_bytes := (t.tx_bytes + c.tx_bytes) % U64MOD })
    total
  total

/-- Function `process_packet` (src/agent/sennet-ebpf/src/main.rs lines 64-89):
given the two per-CPU counter slots of the current CPU, the direction
(0 = ingress, 1 = egress) and the packet length, bump the packet and byte
counters of the touched slot with wrapping `u64` addition.  A direction
outside {0, 1} fails the `COUNTERS.get_ptr_mut` lookup and leaves both
slots unchanged (eBPF failure policy: silent).  The large-packet ring
buffer emission does not touch the counters. -/
def process_packet (c0 c1 : PacketCounters) (direction len : Nat) :
    PacketCounters × PacketCounters :=
  if direction = 0 then
    ({ c0 with
       rx_packets := (c0.rx_packets + 1) % U64MOD
       rx_bytes := (c0.rx_bytes + len) % U64MOD }, c1)
  else if direction = 1 then
    (c0,
     { c1 with
       tx_packets := (c1.tx_packets + 1) % U64MOD
       tx_bytes := (c1.tx_bytes + len) % U64MOD })
  else
    (c0, c1)

/-- Field-wise order on `PacketCounters`: every counter of `a` is at
most the corresponding counter of `b`. -/
def counterLe (a b : PacketCounters) : Prop :=
  a.rx_packets ≤ b.rx_packets ∧ a.rx_bytes ≤ b.rx_bytes ∧
  a.tx_packets ≤ b.tx_packets ∧ a.tx_bytes ≤ b.tx_bytes ∧
  a.drop_count ≤ b.drop_count

/-- Function `drop_reason_str` (src/agent/src/ebpf.rs lines 46-80): map a kernel
drop-reason value to a human-readable name; unmatched values map to
"UNKNOWN". -/
def drop_reason_str (reason : Nat) : String :=
  match reason with
  | 0 => "NO_REASON"
  | 1 => "NOT_SPECIFIED"
  | 2 => "NO_SOCKET"
  | 3 => "PKT_TOO_SMALL"
  | 4 => "TCP_CSUM"
  | 5 => "SOCKET_FILTER"
  | 6 => "UDP_CSUM"
  | 7 => "NETFILTER_DROP"
  | 8 => "OTHERHOST"
  | 9 => "IP_CSUM"
  | 10 => "IP_INHDR"
  | 11 => "IP_RPFILTER"
  | 13 => "XFRM_POLICY"
  | 14 => "IP_NOPROTO"
  | 15 => "SOCKET_RCVBUFF"
  | 16 => "PROTO_MEM"
  | 20 => "SOCKET_BACKLOG"
  | 21 => "TCP_FLAGS"
  | 22 => "TCP_ZEROWINDOW"
  | 23 => "TCP_OLD_DATA"
  | 24 => "TCP_OVERWINDOW"
  | 27 => "TCP_INVALID_SEQ"
  | 28 => "TCP_RESET"
  | 30 => "TCP_CLOSE"
  | 37 => "IP_OUTNOROUTES"
  | 38 => "BPF_CGROUP_EGRESS"
  | 41 => "NEIGH_FAILED"
  | 42 => "NEIGH_QUEUEFULL"
  | 44 => "TC_EGRESS"
  | _ => "UNKNOWN"

/-- Function `drop_reason_str` in sennet-common (src/agent/sennet-common/src/lib.rs
lines 122-156): the same mapping expressed through the `drop_reason`
constants; it has no branch for 0, so 0 falls to "UNKNOWN" there. -/
def common_drop_reason_str (reason : Nat) : String :=
  match reason with
  | 1 => "NOT_SPECIFIED"
  | 2 => "NO_SOCKET"
  | 3 => "PKT_TOO_SMALL"
  | 4 => "TCP_CSUM"
  | 5 => "SOCKET_FILTER"
  | 6 => "UDP_CSUM"
  | 7 => "NETFILTER_DROP"
  | 8 => "OTHERHOST"
  | 9 => "IP_CSUM"
  | 10 => "IP_INHDR"
  | 11 => "IP_RPFILTER"
  | 13 => "XFRM_POLICY"
  | 14 => "IP_NOPROTO"
  | 15 => "SOCKET_RCVBUFF"
  | 16 => "PROTO_MEM"
  | 20 => "SOCKET_BACKLOG"
  | 21 => "TCP_FLAGS"
  | 22 => "TCP_ZEROWINDOW"
  | 23 => "TCP_OLD_DATA"
  | 24 => "TCP_OVERWINDOW"
  | 28 => "TCP_RESET"
  | 27 => "TCP_INVALID_SEQ"
  | 30 => "TCP_CLOSE"
  | 37 => "IP_OUTNOROUTES"
  | 38 => "BPF_CGROUP_EGRESS"
  | 41 => "NEIGH_FAILED"
  | 42 => "NEIGH_QUEUEFULL"
  | 44 => "TC_EGRESS"
  | _ => "UNKNOWN"

/-- The drop-reason values that `drop_reason_str` maps to a dedicated
name (every other value falls to the "UNKNOWN" default). -/
def mappedDropReasons : List Nat :=
  [0, 1, 2, 3, 4, 5, 6, 7, 8, 9, 10, 11, 13, 14, 15, 16, 20, 21, 22,
   23, 24, 27, 28, 30, 37, 38, 41, 42, 44]

/-! ### String primitives used by the Rust code

Rust `&str` values are modelled as `List Char`; the paths and patterns the
agent handles are ASCII, where Rust's byte-based `len`, `contains`,
`starts_with`, `ends_with`, `rsplit`, `strip_prefix` and
`trim_end_matches` coincide with the character-level operations below. -/

/-- Rust `str::starts_with` on character lists. -/
def isPrefixC : List Char → List Char → Bool
  | [], _ => true
  | _ :: _, [] => false
  | a :: as, b :: bs => a = b && isPrefixC as bs

/-- Rust `str::contains` (substring search) on character lists. -/
def isInfixC (pat : List Char) : List Char → Bool
  | [] => isPrefixC pat []
  | c :: rest => isPrefixC pat (c :: rest) || isInfixC pat rest

/-- Rust `str::ends_with` on character lists. -/
def isSuffixC (pat s : List Char) : Bool :=
  isPrefixC pat.reverse s.reverse

/-- The suffix of `s` after the last occurrence of `pat`, when `pat`
occurs in `s` (Rust `s.rsplit(pat).next()` yields this suffix). -/
def afterLastAux (pat : List Char) : List Char → Option (List Char)
  | [] => if pat = [] then some [] else none
  | c :: rest =>
    match afterLastAux pat rest with
    | some t => some t
    | none =>
      if isPrefixC pat (c :: rest) then some ((c :: rest).drop pat.length)
      else none

/-- Rust `s.rsplit(pat).next().unwrap()`: the text after the last
occurrence of `pat`, or all of `s` when `pat` does not occur. -/
def rsplitNext (pat s : List Char) : List Char :=
  (afterLastAux pat s).getD s

/-- The stripping loop of Rust `str::trim_end_matches`, with explicit
fuel so that the recursion is structural: each successful strip removes
at least one character, so any fuel of at least `s.length` makes the
loop run to completion. -/
def trimEndAux : Nat → List Char → List Char → List Char
  | 0, _, s => s
  | fuel + 1, pat, s =>
    if pat ≠ [] ∧ isSuffixC pat s = true then
      trimEndAux fuel pat (s.take (s.length - pat.length))
    else s

/-- Rust `str::trim_end_matches`: repeatedly remove the suffix `pat`. -/
def trimEndMatches (pat s : List Char) : List Char :=
  trimEndAux s.length pat s

/-- Rust `str::strip_prefix` on character lists. -/
def stripPrefixC (pat s : List Char) : Option (List Char) :=
  if isPrefixC pat s then some (s.drop pat.length) else none

/-! ### Container-id extraction (src/agent/src/docker.rs) -/

/-- Function `extract_docker_systemd_id` (src/agent/src/docker.rs lines 124-135):
recognize `/system.slice/docker-<id>.scope`-style paths. -/
def extract_docker_systemd_id (path : List Char) : Option (List Char) :=
  if isInfixC ("docker-".data) path && isSuffixC (".scope".data) path then
    let id := rsplitNext ("docker-".data) path
    let id := trimEndMatches (".scope".data) id
    if 12 ≤ id.length then some id else none
  else none

/-- Function `extract_containerd_id` (src/agent/src/docker.rs lines 138-159):
recognize `containerd-<id>.scope` and `cri-containerd-<id>` paths. -/
def extract_containerd_id (path : List Char) : Option (List Char) :=
  if isInfixC ("containerd-".data) path && isSuffixC (".scope".data) path then
    let id := rsplitNext ("containerd-".data) path
    let id := trimEndMatches (".scope".data) id
    if 12 ≤ id.length then some id else
    extract_containerd_id_cri path
  else extract_containerd_id_cri path
where
  /-- The second (`cri-containerd-`) branch of `extract_containerd_id`. -/
  extract_containerd_id_cri (path : List Char) : Option (List Char) :=
    if isInfixC ("cri-containerd-".data) path then
      let id := rsplitNext ("cri-containerd-".data) path
      let id := trimEndMatches (".scope".data) id
      if 12 ≤ id.length then some id else none
    else none

/-- Function `extract_podman_id` (src/agent/src/docker.rs lines 162-173):
recognize `libpod-<id>.scope` paths. -/
def extract_podman_id (path : List Char) : Option (List Char) :=
  if isInfixC ("libpod-".data) path && isSuffixC (".scope".data) path then
    let id := rsplitNext ("libpod-".data) path
    let id := trimEndMatches (".scope".data) id
    if 12 ≤ id.length then some id else none
  else none

/-- Rust `str::split(sep)` on character lists (keeps empty pieces). -/
def splitOnChar (sep : Char) : List Char → List (List Char)
  | [] => [[]]
  | c :: rest =>
    let r := splitOnChar sep rest
    if c = sep then [] :: r
    else
      match r with
      | [] => [[c]]
      | p :: ps => (c :: p) :: ps

/-- The per-line body of `get_container_id_from_pid`
(src/agent/src/docker.rs lines 87-113): split the cgroup line on `:`,
take the third piece as the cgroup path and try, in order, the Docker
direct format, the Docker systemd format, containerd, and Podman. -/
def container_id_from_line (line : List Char) : Option (List Char) :=
  let parts := splitOnChar ':' line
  if 3 ≤ parts.length then
    let path := parts.getD 2 []
    if isPrefixC ("/docker/".data) path then
      stripPrefixC ("/docker/".data) path
    else
      match extract_docker_systemd_id path with
      | some id => some id
      | none =>
        match extract_containerd_id path with
        | some id => some id
        | none => extract_podman_id path
  else none

/-- Function `get_container_id_from_pid` (src/agent/src/docker.rs lines 79-117)
applied to the already-read lines of `/proc/<pid>/cgroup`: return the
first line's match, scanning lines in order. -/
def get_container_id_from_cgroup (lines : List (List Char)) : Option (List Char) :=
  match lines with
  | [] => none
  | line :: rest =>
    match container_id_from_line line with
    | some id => some id
    | none => get_container_id_from_cgroup rest

/-! ### Version comparison (src/agent/src/upgrade.rs) -/

/-- Rust `str::parse::<u32>()`: an optional leading `+`, then one or more
ASCII digits, value below `2^32`; anything else fails. -/
def parseU32 (s : List Char) : Option Nat :=
  let cs := match s with
    | '+' :: rest => rest
    | cs => cs
  if cs ≠ [] ∧ cs.all (fun c => c.isDigit) then
    let v := cs.foldl (fun acc c => acc * 10 + (c.toNat - 48)) 0
    if v < 2 ^ 32 then some v else none
  else none

/-- Closure `parse_version` inside `needs_upgrade` (src/agent/src/upgrade.rs
lines 230-235): split on `.` and keep the components that parse as
`u32`. -/
def parse_version (v : String) : List Nat :=
  (splitOnChar '.' v.data).filterMap parseU32

/-- The `for (c, l) in curr.iter().zip(lat.iter())` loop of
`needs_upgrade` (src/agent/src/upgrade.rs lines 240-247): the first
unequal zipped pair decides; `none` when all zipped pairs are equal. -/
def zipCompare : List (Nat × Nat) → Option Bool
  | [] => none
  | (c, l) :: rest =>
    if c < l then some true
    else if l < c then some false
    else zipCompare rest

/-- Function `needs_upgrade` (src/agent/src/upgrade.rs lines 229-248). -/
def needs_upgrade (current latest : String) : Bool :=
  let curr := parse_version current
  let lat := parse_version latest
  match zipCompare (curr.zip lat) with
  | some b => b
  | none => decide (curr.length < lat.length)

/-- Modelled from the spec: strict component-wise (lexicographic) semver
order on parsed version components — the reference order that
`needs_upgrade` is claimed to implement. -/
def specLexLt : List Nat → List Nat → Bool
  | [], [] => false
  | [], _ :: _ => true
  | _ :: _, [] => false
  | c :: cs, l :: ls =>
    if c < l then true
    else if c = l then specLexLt cs ls
    else false

/-! ### Configuration (src/agent/src/config.rs) -/

/-- The configuration fields handled by `Config::load_from_file`
(`config_path` and `state_dir` carry no claim-relevant logic and are
omitted). -/
structure Config where
  api_key : String
  server_url : String
  log_level : String
  interface : Option String
  heartbeat_interval_secs : Nat
deriving Repr, DecidableEq

/-- The process environment, as a partial map from variable names to
values. -/
def Env : Type := String → Option String

/-- Method `Config::validate` (src/agent/src/config.rs lines 129-147). -/
def Config.validate (c : Config) : Except String Unit :=
  if c.api_key = "" then .error "api_key cannot be empty"
  else if ¬ isPrefixC ("sk_".data) c.api_key.data then
    .error "api_key must start with sk_"
  else if c.server_url = "" then .error "server_url cannot be empty"
  else if ¬ (isPrefixC ("http://".data) c.server_url.data ||
             isPrefixC ("https://".data) c.server_url.data) then
    .error "server_url must start with http:// or https://"
  else .ok ()

/-- Method `Config::load_from_file` (src/agent/src/config.rs lines 98-123)
after the file has been read and YAML-parsed into `file`: apply the
environment overrides for `SENNET_API_KEY`, `SENNET_SERVER_URL`,
`SENNET_LOG_LEVEL` and `SENNET_INTERFACE` (the source has no override
for `SENNET_HEARTBEAT_INTERVAL` on this path), then validate. -/
def load_from_file (env : Env) (file : Config) : Except String Config :=
  let config := file
  let config := match env "SENNET_API_KEY" with
    | some v => { config with api_key := v }
    | none => config
  let config := match env "SENNET_SERVER_URL" with
    | some v => { config with server_url := v }
    | none => config
  let config := match env "SENNET_LOG_LEVEL" with
    | some v => { config with log_level := v }
    | none => config
  let config := match env "SENNET_INTERFACE" with
    | some v => { config with interface := some v }
    | none => config
  match config.validate with
  | .ok _ => .ok config
  | .error e => .error e

/-! ### Heartbeat response and command handling
(src/agent/src/client.rs, src/agent/src/heartbeat.rs) -/

/-- The `Command` enum (src/agent/src/client.rs lines 33-46); serde
renames the variants to SCREAMING_SNAKE_CASE and `Default` is
`CommandNoop`. -/
inductive Command where
  | commandUnspecified
  | commandNoop
  | commandUpgrade
  | commandReconfigure
deriving Repr, DecidableEq

/-- serde's deserialization of a `Command` value from its string form:
exactly the four SCREAMING_SNAKE_CASE variant names are accepted; any
other string is an unknown-variant error. -/
def commandFromString (s : String) : Option Command :=
  if s = "COMMAND_UNSPECIFIED" then some .commandUnspecified
  else if s = "COMMAND_NOOP" then some .commandNoop
  else if s = "COMMAND_UPGRADE" then some .commandUpgrade
  else if s = "COMMAND_RECONFIGURE" then some .commandReconfigure
  else none

/-- serde's handling of the `command` field of `HeartbeatResponse`
(src/agent/src/client.rs lines 48-60): a missing field takes
`Command::default()` (NOOP) via `#[serde(default)]`; a present field is
deserialized by the enum's `Deserialize`, which fails on an unrecognized
string. -/
def parseCommandField : Option String → Except String Command
  | none => .ok .commandNoop
  | some s =>
    match commandFromString s with
    | some c => .ok c
    | none => .error ("unknown variant " ++ s)

/-- Structure `HeartbeatResponse` (src/agent/src/client.rs lines 48-60). -/
structure HeartbeatResponse where
  command : Command
  latest_version : String
  config_hash : String
deriving Repr, DecidableEq

/-- serde's deserialization of a `HeartbeatResponse` from its three
optional JSON fields: `latestVersion` and `configHash` default to the
empty string, `command` defaults to NOOP, and an unrecognized command
string fails the whole deserialization. -/
def parseHeartbeatResponse (command latestVersion configHash : Option String) :
    Except String HeartbeatResponse :=
  match parseCommandField command with
  | .error e => .error e
  | .ok cmd =>
    .ok { command := cmd
          latest_version := latestVersion.getD ""
          config_hash := configHash.getD "" }

/-- The externally observable action of `HeartbeatLoop::handle_command`
(src/agent/src/heartbeat.rs lines 161-207). -/
inductive CommandAction where
  /-- NOOP branch: debug log only. -/
  | noAction
  /-- UPGRADE branch: construct the `Updater` and run its upgrade
  (re-exec on success). -/
  | invokeUpdater
  /-- RECONFIGURE branch: log that reload is not implemented. -/
  | reconfigureWarn
  /-- UNSPECIFIED branch: warn log only. -/
  | unspecifiedWarn
deriving Repr, DecidableEq

/-- Method `HeartbeatLoop::handle_command` (src/agent/src/heartbeat.rs lines
161-207): dispatch on the command alone; `latest_version` is used only
in the UPGRADE branch's log line, never tested. -/
def handle_command (command : Command) (latest_version : String) :
    CommandAction :=
  match command with
  | .commandNoop => .noAction
  | .commandUpgrade =>
    let _ := latest_version
    .invokeUpdater
  | .commandReconfigure => .reconfigureWarn
  | .commandUnspecified => .unspecifiedWarn

/-! ### Request signing (src/agent/src/crypto.rs)

`sign_request` delegates to the `hmac`/`sha2` crates (HMAC-SHA256,
FIPS 180-4 / RFC 2104) and `hex::encode` (lowercase hex); those are
embedded below over byte lists (`List Nat`, each element `< 256`). -/

/-- Two to the 32, the modulus of `u32` arithmetic inside SHA-256. -/
def U32MOD : Nat := 2 ^ 32

/-- Right rotation of a 32-bit word. -/
def rotr32 (n w : Nat) : Nat :=
  ((w >>> n) ||| (w <<< (32 - n))) % U32MOD

/-- The 64 SHA-256 round constants (FIPS 180-4: the first 32 bits of
the fractional parts of the cube roots of the first 64 primes, here in
decimal: the first entry is 0x428a2f98, the last 0xc67178f2). -/
def sha256K : List Nat :=
  [1116352408, 1899447441, 3049323471, 3921009573,
   961987163, 1508970993, 2453635748, 2870763221,
   3624381080, 310598401, 607225278, 1426881987,
   1925078388, 2162078206, 2614888103, 3248222580,
   3835390401, 4022224774, 264347078, 604807628,
   770255983, 1249150122, 1555081692, 1996064986,
   2554220882, 2821834349, 2952996808, 3210313671,
   3336571891, 3584528711, 113926993, 338241895,
   666307205, 773529912, 1294757372, 1396182291,
   1695183700, 1986661051, 2177026350, 2456956037,
   2730485921, 2820302411, 3259730800, 3345764771,
   3516065817, 3600352804, 4094571909, 275423344,
   430227734, 506948616, 659060556, 883997877,
   958139571, 1322822218, 1537002063, 1747873779,
   1955562222, 2024104815, 2227730452, 2361852424,
   2428436474, 2756734187, 3204031479, 3329325298]

/-- The working state of the SHA-256 compression function. -/
structure Sha256State where
  a : Nat
  b : Nat
  c : Nat
  d : Nat
  e : Nat
  f : Nat
  g : Nat
  hh : Nat
deriving Repr, DecidableEq

/-- The SHA-256 initial hash value (FIPS 180-4: the first 32 bits of
the fractional parts of the square roots of the first 8 primes, in
decimal: the first entry is 0x6a09e667, the last 0x5be0cd19). -/
def sha256Init : Sha256State :=
  ⟨1779033703, 3144134277, 1013904242, 2773480762,
   1359893119, 2600822924, 528734635, 1541459225⟩

/-- Big-endian byte encoding of `n` into `len` bytes. -/
def beBytes (n len : Nat) : List Nat :=
  (List.range len).map (fun i => (n >>> (8 * (len - 1 - i))) % 256)

/-- Group bytes into big-endian 32-bit words (complete groups of 4). -/
def toWordsBE : List Nat → List Nat
  | b0 :: b1 :: b2 :: b3 :: rest =>
    ((b0 <<< 24) + (b1 <<< 16) + (b2 <<< 8) + b3) :: toWordsBE rest
  | _ => []

/-- Split a byte list into 64-byte chunks. -/
def chunks64 (l : List Nat) : List (List Nat) :=
  if h : l = [] then []
  else l.take 64 :: chunks64 (l.drop 64)
termination_by l.length
decreasing_by
  have : 0 < l.length := by
    cases l with
    | nil => exact absurd rfl h
    | cons a as => simp
  simp only [List.length_drop]
  omega

/-- SHA-256 message-schedule extension: grow the 16 chunk words to 64. -/
def extendSchedule (w16 : List Nat) : List Nat :=
  (List.range 48).foldl
    (fun w _ =>
      let n := w.length
      let s0 :=
        rotr32 7 (w.getD (n - 15) 0) ^^^ rotr32 18 (w.getD (n - 15) 0) ^^^
          ((w.getD (n - 15) 0) >>> 3)
      let s1 :=
        rotr32 17 (w.getD (n - 2) 0) ^^^ rotr32 19 (w.getD (n - 2) 0) ^^^
          ((w.getD (n - 2) 0) >>> 10)
      w ++ [(w.getD (n - 16) 0 + s0 + w.getD (n - 7) 0 + s1) % U32MOD])
    w16

/-- The SHA-256 compression of one 64-byte chunk into the running
state. -/
def sha256Compress (st : Sha256State) (chunk : List Nat) : Sha256State :=
  let w := extendSchedule (toWordsBE chunk)
  let ls := (w.zip sha256K).foldl
    (fun s wk =>
      let bigS1 := rotr32 6 s.e ^^^ rotr32 11 s.e ^^^ rotr32 25 s.e
      let ch := (s.e &&& s.f) ^^^ ((s.e ^^^ 0xffffffff) &&& s.g)
      let t1 := (s.hh + bigS1 + ch + wk.2 + wk.1) % U32MOD
      let bigS0 := rotr32 2 s.a ^^^ rotr32 13 s.a ^^^ rotr32 22 s.a
      let maj := (s.a &&& s.b) ^^^ (s.a &&& s.c) ^^^ (s.b &&& s.c)
      let t2 := (bigS0 + maj) % U32MOD
      ⟨(t1 + t2) % U32MOD, s.a, s.b, s.c, (s.d + t1) % U32MOD, s.e, s.f, s.g⟩)
    st
  ⟨(st.a + ls.a) % U32MOD, (st.b + ls.b) % U32MOD, (st.c + ls.c) % U32MOD,
   (st.d + ls.d) % U32MOD, (st.e + ls.e) % U32MOD, (st.f + ls.f) % U32MOD,
   (st.g + ls.g) % U32MOD, (st.hh + ls.hh) % U32MOD⟩

/-- SHA-256 of a byte list (FIPS 180-4), as 32 bytes. -/
def sha256 (msg : List Nat) : List Nat :=
  let padZeros := (119 - msg.length % 64) % 64
  let padded := msg ++ [0x80] ++ List.replicate padZeros 0 ++
    beBytes (msg.length * 8) 8
  let st := (chunks64 padded).foldl sha256Compress sha256Init
  ([st.a, st.b, st.c, st.d, st.e, st.f, st.g, st.hh].map
    (fun w => beBytes w 4)).flatten

/-- HMAC-SHA256 (RFC 2104, block size 64), as used by the `hmac`
crate. -/
def hmacSha256 (key msg : List Nat) : List Nat :=
  let key := if 64 < key.length then sha256 key else key
  let key := key ++ List.replicate (64 - key.length) 0
  let ipad := key.map (fun b => b ^^^ 0x36)
  let opad := key.map (fun b => b ^^^ 0x5c)
  sha256 (opad ++ sha256 (ipad ++ msg))

/-- Lowercase hex digit of a value below 16, as an ASCII byte
(`hex::encode` is lowercase). -/
def hexDigit (n : Nat) : Nat :=
  if n < 10 then 48 + n else 87 + n

/-- Rust `hex::encode`: each byte becomes two lowercase hex ASCII bytes. -/
def hexEncode (bytes : List Nat) : List Nat :=
  (bytes.map (fun b => [hexDigit (b / 16), hexDigit (b % 16)])).flatten

/-- Rust `i64::to_le_bytes`: the eight little-endian bytes of the
two's-complement representation. -/
def i64LeBytes (t : Int) : List Nat :=
  let u := (t % (2 ^ 64 : Int)).toNat
  (List.range 8).map (fun i => (u >>> (8 * i)) % 256)

/-- Function `sign_request` (src/agent/src/crypto.rs lines 20-29): HMAC-SHA256
over the little-endian timestamp bytes followed by the body, keyed by
the secret's bytes, hex-encoded.  The returned Rust `String` is
represented by its ASCII bytes. -/
def sign_request (secret : List Nat) (timestamp : Int) (body : List Nat) :
    List Nat :=
  hexEncode (hmacSha256 secret (i64LeBytes timestamp ++ body))

/-- Function `constant_time_eq` (src/agent/src/crypto.rs lines 48-58): length
check, then OR together the XORs of corresponding bytes and compare the
accumulator with zero. -/
def constant_time_eq (a b : List Nat) : Bool :=
  if a.length ≠ b.length then false
  else (a.zip b).foldl (fun result xy => result ||| (xy.1 ^^^ xy.2)) 0 == 0

/-- Function `verify_signature` (src/agent/src/crypto.rs lines 41-45): recompute
the expected signature and compare constant-time with the candidate's
bytes. -/
def verify_signature (secret : List Nat) (timestamp : Int)
    (body signature : List Nat) : Bool :=
  let expected := sign_request secret timestamp body
  constant_time_eq expected signature

/-! ### Concrete fixtures used in the theorems below -/

/-- An environment setting only `SENNET_HEARTBEAT_INTERVAL`. -/
def envHB : Env := fun k =>
  if k = "SENNET_HEARTBEAT_INTERVAL" then some "99" else none

/-- A valid file configuration with a 10-second heartbeat interval. -/
def fileCfg : Config :=
  ⟨"sk_abc", "https://x.example", "info", none, 10⟩

/-- An environment setting all five documented `SENNET_*` override
variables. -/
def envAll : Env := fun k =>
  if k = "SENNET_API_KEY" then some "sk_new"
  else if k = "SENNET_SERVER_URL" then some "https://new.example"
  else if k = "SENNET_LOG_LEVEL" then some "debug"
  else if k = "SENNET_INTERFACE" then some "eth1"
  else if k = "SENNET_HEARTBEAT_INTERVAL" then some "99"
  else none

/-- The configuration `load_from_file` produces from `envAll` and
`fileCfg`: the four supported overrides applied, the heartbeat interval
left at the file's value. -/
def cfgAll : Config :=
  ⟨"sk_new", "https://new.example", "debug", some "eth1", 10⟩

/-! ## Theorems -/

theorem U64MOD_pos : 0 < U64MOD := by
  norm_num [U64MOD]

/-- The accumulation loop of `sum_values`, over any starting
accumulator whose fields are valid `u64` values, computes the per-field
sums modulo `2^64`. -/
theorem sum_values_foldl_eq (cpus : List PacketCounters) (s : PacketCounters)
    (h1 : s.rx_packets < U64MOD) (h2 : s.rx_bytes < U64MOD)
    (h3 : s.tx_packets < U64MOD) (h4 : s.tx_bytes < U64MOD)
    (h5 : s.drop_count < U64MOD) :
    cpus.foldl
      (fun sum c =>
        { rx_packets := (sum.rx_packets + c.rx_packets) % U64MOD
          rx_bytes := (sum.rx_bytes + c.rx_bytes) % U64MOD
          tx_packets := (sum.tx_packets + c.tx_packets) % U64MOD
          tx_bytes := (sum.tx_bytes + c.tx_bytes) % U64MOD
          drop_count := (sum.drop_count + c.drop_count) % U64MOD })
      s =
      ⟨(s.rx_packets + (cpus.map (·.rx_packets)).sum) % U64MOD,
       (s.rx_bytes + (cpus.map (·.rx_bytes)).sum) % U64MOD,
       (s.tx_packets + (cpus.map (·.tx_packets)).sum) % U64MOD,
       (s.tx_bytes + (cpus.map (·.tx_bytes)).sum) % U64MOD,
       (s.drop_count + (cpus.map (·.drop_count)).sum) % U64MOD⟩ := by
  induction cpus generalizing s with
  | nil =>
    simp only [List.foldl_nil, List.map_nil, List.sum_nil, Nat.add_zero]
    rw [Nat.mod_eq_of_lt h1, Nat.mod_eq_of_lt h2, Nat.mod_eq_of_lt h3,
      Nat.mod_eq_of_lt h4, Nat.mod_eq_of_lt h5]
  | cons c cs ih =>
    simp only [List.foldl_cons, List.map_cons, List.sum_cons]
    rw [ih _ (Nat.mod_lt _ U64MOD_pos) (Nat.mod_lt _ U64MOD_pos)
      (Nat.mod_lt _ U64MOD_pos) (Nat.mod_lt _ U64MOD_pos)
      (Nat.mod_lt _ U64MOD_pos)]
    simp only [Nat.mod_add_mod, Nat.add_assoc]

/-- The first accumulation loop of `read_ebpf_counters` (ingress slot):
it sums `rx_packets`, `rx_bytes`, `drop_count` and leaves the `tx`
fields untouched. -/
theorem hb_fold0_eq (cpus : List PacketCounters) (s : PacketCounters)
    (h1 : s.rx_packets < U64MOD) (h2 : s.rx_bytes < U64MOD)
    (h5 : s.drop_count < U64MOD) :
    cpus.foldl
      (fun t c =>
        { t with
          rx_packets := (t.rx_packets + c.rx_packets) % U64MOD
          rx_bytes := (t.rx_bytes + c.rx_bytes) % U64MOD
          drop_count := (t.drop_count + c.drop_count) % U64MOD })
      s =
      ⟨(s.rx_packets + (cpus.map (·.rx_packets)).sum) % U64MOD,
       (s.rx_bytes + (cpus.map (·.rx_bytes)).sum) % U64MOD,
       s.tx_packets, s.tx_bytes,
       (s.drop_count + (cpus.map (·.drop_count)).sum) % U64MOD⟩ := by
  induction cpus generalizing s with
  | nil =>
    simp only [List.foldl_nil, List.map_nil, List.sum_nil, Nat.add_zero]
    rw [Nat.mod_eq_of_lt h1, Nat.mod_eq_of_lt h2, Nat.mod_eq_of_lt h5]
  | cons c cs ih =>
    simp only [List.foldl_cons, List.map_cons, List.sum_cons]
    rw [ih _ (Nat.mod_lt _ U64MOD_pos) (Nat.mod_lt _ U64MOD_pos)
      (Nat.mod_lt _ U64MOD_pos)]
    simp only [Nat.mod_add_mod, Nat.add_assoc]

/-- The second accumulation loop of `read_ebpf_counters` (egress slot):
it sums `tx_packets`, `tx_bytes` and leaves the other fields
untouched. -/
theorem hb_fold1_eq (cpus : List PacketCounters) (s : PacketCounters)
    (h3 : s.tx_packets < U64MOD) (h4 : s.tx_bytes < U64MOD) :
    cpus.foldl
      (fun t c =>
        { t with
          tx_packets := (t.tx_packets + c.tx_packets) % U64MOD
          tx_bytes := (t.tx_bytes + c.tx_bytes) % U64MOD })
      s =
      ⟨s.rx_packets, s.rx_bytes,
       (s.tx_packets + (cpus.map (·.tx_packets)).sum) % U64MOD,
       (s.tx_bytes + (cpus.map (·.tx_bytes)).sum) % U64MOD,
       s.drop_count⟩ := by
  induction cpus generalizing s with
  | nil =>
    simp only [List.foldl_nil, List.map_nil, List.sum_nil, Nat.add_zero]
    rw [Nat.mod_eq_of_lt h3, Nat.mod_eq_of_lt h4]
  | cons c cs ih =>
    simp only [List.foldl_cons, List.map_cons, List.sum_cons]
    rw [ih _ (Nat.mod_lt _ U64MOD_pos) (Nat.mod_lt _ U64MOD_pos)]
    simp only [Nat.mod_add_mod, Nat.add_assoc]

/-- C1.  The counter fold returns one `PacketCounters` snapshot in which
`rx_packets`, `rx_bytes` and `drop_count` are the sums over all CPUs of
the corresponding fields of per-CPU slot 0 (ingress) and `tx_packets`,
`tx_bytes` are the sums over slot 1 (egress); both the `read_counters`
fold of the eBPF manager and the `read_ebpf_counters` fold of the
heartbeat loop compute this, the sums taken in wrapping `u64`
arithmetic (exactly the arithmetic per-field sums whenever those sums
fit in a `u64`, as in every synthetic test array). -/
theorem counter_fold_correct (cpus0 cpus1 : List PacketCounters) :
    read_counters cpus0 cpus1 = read_ebpf_counters cpus0 cpus1 ∧
    read_counters cpus0 cpus1 =
      ⟨(cpus0.map (·.rx_packets)).sum % U64MOD,
       (cpus0.map (·.rx_bytes)).sum % U64MOD,
       (cpus1.map (·.tx_packets)).sum % U64MOD,
       (cpus1.map (·.tx_bytes)).sum % U64MOD,
       (cpus0.map (·.drop_count)).sum % U64MOD⟩ ∧
    ((cpus0.map (·.rx_packets)).sum < U64MOD →
     (cpus0.map (·.rx_bytes)).sum < U64MOD →
     (cpus1.map (·.tx_packets)).sum < U64MOD →
     (cpus1.map (·.tx_bytes)).sum < U64MOD →
     (cpus0.map (·.drop_count)).sum < U64MOD →
     read_counters cpus0 cpus1 =
       ⟨(cpus0.map (·.rx_packets)).sum,
        (cpus0.map (·.rx_bytes)).sum,
        (cpus1.map (·.tx_packets)).sum,
        (cpus1.map (·.tx_bytes)).sum,
        (cpus0.map (·.drop_count)).sum⟩) := by
  have hsum0 := sum_values_foldl_eq cpus0 PacketCounters.default
    U64MOD_pos U64MOD_pos U64MOD_pos U64MOD_pos U64MOD_pos
  have hsum1 := sum_values_foldl_eq cpus1 PacketCounters.default
    U64MOD_pos U64MOD_pos U64MOD_pos U64MOD_pos U64MOD_pos
  have hrc : read_counters cpus0 cpus1 =
      ⟨(cpus0.map (·.rx_packets)).sum % U64MOD,
       (cpus0.map (·.rx_bytes)).sum % U64MOD,
       (cpus1.map (·.tx_packets)).sum % U64MOD,
       (cpus1.map (·.tx_bytes)).sum % U64MOD,
       (cpus0.map (·.drop_count)).sum % U64MOD⟩ := by
    unfold read_counters sum_values
    rw [hsum0, hsum1]
    simp [PacketCounters.default]
  have hhb : read_ebpf_counters cpus0 cpus1 =
      ⟨(cpus0.map (·.rx_packets)).sum % U64MOD,
       (cpus0.map (·.rx_bytes)).sum % U64MOD,
       (cpus1.map (·.tx_packets)).sum % U64MOD,
       (cpus1.map (·.tx_bytes)).sum % U64MOD,
       (cpus0.map (·.drop_count)).sum % U64MOD⟩ := by
    simp only [read_ebpf_counters]
    rw [hb_fold0_eq cpus0 PacketCounters.default
      U64MOD_pos U64MOD_pos U64MOD_pos]
    rw [hb_fold1_eq cpus1 _ U64MOD_pos U64MOD_pos]
    simp [PacketCounters.default]
  refine ⟨by rw [hrc, hhb], hrc, fun g1 g2 g3 g4 g5 => ?_⟩
  rw [hrc]
  rw [Nat.mod_eq_of_lt g1, Nat.mod_eq_of_lt g2, Nat.mod_eq_of_lt g3,
    Nat.mod_eq_of_lt g4, Nat.mod_eq_of_lt g5]

/-- C1 witness: the fold at the synthetic three-CPU array where CPU `i`
holds `(i+1, 2(i+1), 3(i+1), 4(i+1), 5(i+1))` equals the arithmetic
per-field sum. -/
theorem counter_fold_correct_witness :
    read_counters
        [⟨1, 2, 3, 4, 5⟩, ⟨2, 4, 6, 8, 10⟩, ⟨3, 6, 9, 12, 15⟩]
        [⟨1, 2, 3, 4, 5⟩, ⟨2, 4, 6, 8, 10⟩, ⟨3, 6, 9, 12, 15⟩] =
      ⟨6, 12, 18, 24, 30⟩ :=
  ((counter_fold_correct
      [⟨1, 2, 3, 4, 5⟩, ⟨2, 4, 6, 8, 10⟩, ⟨3, 6, 9, 12, 15⟩]
      [⟨1, 2, 3, 4, 5⟩, ⟨2, 4, 6, 8, 10⟩, ⟨3, 6, 9, 12, 15⟩]).2.2
    (by decide) (by decide) (by decide) (by decide) (by decide)).trans
    (by decide)

/-- C7.  Each `process_packet` step only adds to the per-CPU counter
slot it touches: as long as the touched additions do not wrap the
`u64`, every field of both slots after the step is at least its value
before the step, and the slot that is not addressed by the direction is
unchanged (directions outside {0, 1} change nothing). -/
theorem process_packet_monotone (c0 c1 : PacketCounters)
    (direction len : Nat)
    (h0 : direction = 0 → c0.rx_packets + 1 < U64MOD ∧ c0.rx_bytes + len < U64MOD)
    (h1 : direction = 1 → c1.tx_packets + 1 < U64MOD ∧ c1.tx_bytes + len < U64MOD) :
    counterLe c0 (process_packet c0 c1 direction len).1 ∧
    counterLe c1 (process_packet c0 c1 direction len).2 ∧
    (direction = 0 → (process_packet c0 c1 direction len).2 = c1) ∧
    (direction = 1 → (process_packet c0 c1 direction len).1 = c0) ∧
    (direction ≠ 0 → direction ≠ 1 →
      process_packet c0 c1 direction len = (c0, c1)) := by
  by_cases hd0 : direction = 0
  · subst hd0
    obtain ⟨ha, hb⟩ := h0 rfl
    refine ⟨⟨?_, ?_, le_refl _, le_refl _, le_refl _⟩,
      ⟨le_refl _, le_refl _, le_refl _, le_refl _, le_refl _⟩,
      fun _ => rfl, fun h => absurd h (by decide), fun h _ => absurd rfl h⟩
    · show c0.rx_packets ≤ (c0.rx_packets + 1) % U64MOD
      rw [Nat.mod_eq_of_lt ha]; omega
    · show c0.rx_bytes ≤ (c0.rx_bytes + len) % U64MOD
      rw [Nat.mod_eq_of_lt hb]; omega
  · by_cases hd1 : direction = 1
    · subst hd1
      obtain ⟨ha, hb⟩ := h1 rfl
      refine ⟨⟨le_refl _, le_refl _, le_refl _, le_refl _, le_refl _⟩,
        ⟨le_refl _, le_refl _, ?_, ?_, le_refl _⟩,
        fun h => absurd h hd0, fun _ => rfl, fun _ h => absurd rfl h⟩
      · show c1.tx_packets ≤ (c1.tx_packets + 1) % U64MOD
        rw [Nat.mod_eq_of_lt ha]; omega
      · show c1.tx_bytes ≤ (c1.tx_bytes + len) % U64MOD
        rw [Nat.mod_eq_of_lt hb]; omega
    · have hpp : process_packet c0 c1 direction len = (c0, c1) := by
        simp [process_packet, hd0, hd1]
      rw [hpp]
      exact ⟨⟨le_refl _, le_refl _, le_refl _, le_refl _, le_refl _⟩,
        ⟨le_refl _, le_refl _, le_refl _, le_refl _, le_refl _⟩,
        fun h => absurd h hd0, fun h => absurd h hd1, fun _ _ => rfl⟩

/-- C7 witness: an ingress step on a concrete state grows the ingress
slot field-wise and leaves the egress slot unchanged. -/
theorem process_packet_monotone_witness :
    counterLe ⟨5, 100, 0, 0, 0⟩
      (process_packet ⟨5, 100, 0, 0, 0⟩ ⟨1, 2, 3, 4, 5⟩ 0 1500).1 ∧
    counterLe ⟨1, 2, 3, 4, 5⟩
      (process_packet ⟨5, 100, 0, 0, 0⟩ ⟨1, 2, 3, 4, 5⟩ 0 1500).2 ∧
    ((0 : Nat) = 0 →
      (process_packet ⟨5, 100, 0, 0, 0⟩ ⟨1, 2, 3, 4, 5⟩ 0 1500).2 =
        ⟨1, 2, 3, 4, 5⟩) ∧
    ((0 : Nat) = 1 →
      (process_packet ⟨5, 100, 0, 0, 0⟩ ⟨1, 2, 3, 4, 5⟩ 0 1500).1 =
        ⟨5, 100, 0, 0, 0⟩) ∧
    ((0 : Nat) ≠ 0 → (0 : Nat) ≠ 1 →
      process_packet ⟨5, 100, 0, 0, 0⟩ ⟨1, 2, 3, 4, 5⟩ 0 1500 =
        (⟨5, 100, 0, 0, 0⟩, ⟨1, 2, 3, 4, 5⟩)) :=
  process_packet_monotone ⟨5, 100, 0, 0, 0⟩ ⟨1, 2, 3, 4, 5⟩ 0 1500
    (by decide) (by decide)

/-- C5 counterexample: 12 and 17 lie in the kernel drop-reason range
1..44, yet `drop_reason_str` sends both to "UNKNOWN" — the same string
as the unmapped value 999 — so not every value in 1..44 gets a distinct
human-readable name. -/
theorem drop_reason_counterexample :
    drop_reason_str 12 = "UNKNOWN" ∧ drop_reason_str 17 = "UNKNOWN" ∧
    drop_reason_str 12 = drop_reason_str 999 ∧
    common_drop_reason_str 12 = "UNKNOWN" :=
  ⟨rfl, rfl, rfl, rfl⟩

/-- C5 (amended).  `drop_reason_str` sends each of its 28 mapped values
in 1..44 (and 0) to a distinct name — none of them "UNKNOWN" — sends 7
to "NETFILTER_DROP", and sends every value outside the mapped set
(including 12, 17 and the rest of the gaps inside 1..44, and any value
such as 999) to "UNKNOWN"; on every nonzero reason the copy in
sennet-common agrees. -/
theorem drop_reason_mapping :
    drop_reason_str 7 = "NETFILTER_DROP" ∧
    drop_reason_str 999 = "UNKNOWN" ∧
    (mappedDropReasons.map drop_reason_str).Nodup ∧
    (∀ r ∈ mappedDropReasons, drop_reason_str r ≠ "UNKNOWN") ∧
    (∀ n : Nat, n ∉ mappedDropReasons → drop_reason_str n = "UNKNOWN") ∧
    (∀ n : Nat, common_drop_reason_str (n + 1) = drop_reason_str (n + 1)) := by
  refine ⟨rfl, rfl, by decide, by decide, ?_, ?_⟩
  · intro n hn
    by_cases hle : n ≤ 44
    · interval_cases n <;>
        first
          | rfl
          | exact absurd (by decide) hn
    · obtain ⟨m, rfl⟩ : ∃ m, n = m + 45 := ⟨n - 45, by omega⟩
      rfl
  · intro n
    by_cases hle : n ≤ 43
    · interval_cases n <;> rfl
    · obtain ⟨m, hm⟩ : ∃ m, n = m + 44 := ⟨n - 44, by omega⟩
      subst hm
      rfl

/-- C5 witness: the theorem's unmapped-value clause at the concrete
input 999. -/
theorem drop_reason_mapping_witness :
    drop_reason_str 999 = "UNKNOWN" :=
  drop_reason_mapping.2.2.2.2.1 999 (by decide)

/-- C3 counterexample: a heartbeat response whose `command` field holds
the unrecognized string "COMMAND_RESTART" does not deserialize to NOOP —
deserialization fails with serde's unknown-variant error. -/
theorem command_parse_counterexample :
    parseHeartbeatResponse (some "COMMAND_RESTART") (some "1.0.0")
        (some "abc123") =
      .error "unknown variant COMMAND_RESTART" :=
  rfl

/-- C3 (amended).  A heartbeat response with the `command` field missing
deserializes successfully to the NOOP command, and a response whose
`command` field holds a string deserializes successfully exactly when
that string is one of the four recognized command names; any other
string fails deserialization (a protocol error for the heartbeat
attempt) instead of yielding NOOP. -/
theorem command_parse_behaviour :
    parseHeartbeatResponse none none none =
      .ok ⟨.commandNoop, "", ""⟩ ∧
    (∀ (s : String) (lv ch : Option String),
      (∃ r, parseHeartbeatResponse (some s) lv ch = .ok r) ↔
        s ∈ ["COMMAND_UNSPECIFIED", "COMMAND_NOOP", "COMMAND_UPGRADE",
             "COMMAND_RECONFIGURE"]) ∧
    (∀ lv ch : Option String,
      parseHeartbeatResponse (some "COMMAND_NOOP") lv ch =
        .ok ⟨.commandNoop, lv.getD "", ch.getD ""⟩) := by
  refine ⟨rfl, ?_, fun lv ch => rfl⟩
  intro s lv ch
  constructor
  · rintro ⟨r, hr⟩
    simp only [parseHeartbeatResponse, parseCommandField,
      commandFromString] at hr
    split_ifs at hr <;> simp_all
  · intro hs
    simp only [List.mem_cons, List.mem_singleton, List.not_mem_nil, or_false] at hs
    rcases hs with rfl | rfl | rfl | rfl <;> exact ⟨_, rfl⟩

/-- C4 counterexample: `handle_command` on the UPGRADE command with an
empty `latestVersion` still invokes the updater — it is not rejected as
a protocol error and not treated as NOOP. -/
theorem upgrade_empty_version_counterexample :
    handle_command .commandUpgrade "" = .invokeUpdater :=
  rfl

/-- C4 (amended).  `handle_command` dispatches UPGRADE to the upgrade
collaborator for every `latestVersion` value, the empty string
included; `latestVersion` is never inspected (it is only logged), and
the other commands do not invoke the updater. -/
theorem upgrade_dispatch :
    ∀ lv : String,
      handle_command .commandUpgrade lv = .invokeUpdater ∧
      handle_command .commandNoop lv = .noAction ∧
      handle_command .commandUnspecified lv = .unspecifiedWarn ∧
      handle_command .commandReconfigure lv = .reconfigureWarn :=
  fun _ => ⟨rfl, rfl, rfl, rfl⟩

/-- C2 counterexample: with `SENNET_HEARTBEAT_INTERVAL=99` set in the
environment, loading a config file whose heartbeat interval is 10
yields 10 — the environment value is not applied on the file-load
path. -/
theorem config_env_override_counterexample :
    envHB "SENNET_HEARTBEAT_INTERVAL" = some "99" ∧
    fileCfg.heartbeat_interval_secs = 10 ∧
    load_from_file envHB fileCfg = .ok fileCfg :=
  ⟨rfl, rfl, rfl⟩

/-- C2 (amended).  When a config file is loaded, the four fields with
environment overrides on that path — `SENNET_API_KEY`,
`SENNET_SERVER_URL`, `SENNET_LOG_LEVEL`, `SENNET_INTERFACE` — take the
environment value whenever the variable is set and the file value
otherwise, independently per field; `SENNET_HEARTBEAT_INTERVAL` is
never consulted on this path and the heartbeat interval always keeps
the file's value. -/
theorem config_env_override (env : Env) (file cfg : Config)
    (h : load_from_file env file = .ok cfg) :
    cfg.api_key = (env "SENNET_API_KEY").getD file.api_key ∧
    cfg.server_url = (env "SENNET_SERVER_URL").getD file.server_url ∧
    cfg.log_level = (env "SENNET_LOG_LEVEL").getD file.log_level ∧
    cfg.interface = ((env "SENNET_INTERFACE").map some).getD file.interface ∧
    cfg.heartbeat_interval_secs = file.heartbeat_interval_secs := by
  simp only [load_from_file] at h
  split at h
  · injection h with h'
    subst h'
    cases h1 : env "SENNET_API_KEY" <;> cases h2 : env "SENNET_SERVER_URL" <;>
      cases h3 : env "SENNET_LOG_LEVEL" <;>
      cases h4 : env "SENNET_INTERFACE" <;>
      simp [h1, h2, h3, h4]
  · exact absurd h (by simp)

/-- C2 witness: with all five `SENNET_*` variables set, the loaded
config takes the four supported overrides and keeps the file's
heartbeat interval. -/
theorem config_env_override_witness :
    cfgAll.api_key = (envAll "SENNET_API_KEY").getD fileCfg.api_key ∧
    cfgAll.server_url =
      (envAll "SENNET_SERVER_URL").getD fileCfg.server_url ∧
    cfgAll.log_level = (envAll "SENNET_LOG_LEVEL").getD fileCfg.log_level ∧
    cfgAll.interface =
      ((envAll "SENNET_INTERFACE").map some).getD fileCfg.interface ∧
    cfgAll.heartbeat_interval_secs = fileCfg.heartbeat_interval_secs :=
  config_env_override envAll fileCfg cfgAll rfl

/-- The `for` loop of `needs_upgrade` followed by its length fallback
computes exactly the strict lexicographic order on the parsed
component lists. -/
theorem zipCompare_loop_eq (cs ls : List Nat) :
    (match zipCompare (cs.zip ls) with
     | some b => b
     | none => decide (cs.length < ls.length)) = specLexLt cs ls := by
  induction cs generalizing ls with
  | nil =>
    cases ls with
    | nil => simp [zipCompare, specLexLt]
    | cons l ls => simp [zipCompare, specLexLt]
  | cons c cs ih =>
    cases ls with
    | nil => simp [zipCompare, specLexLt]
    | cons l ls =>
      by_cases hcl : c < l
      · simp [zipCompare, specLexLt, hcl]
      · by_cases hlc : l < c
        · have hne : ¬ c = l := by omega
          simp [zipCompare, specLexLt, hcl, hlc, hne]
        · have heq : c = l := by omega
          subst heq
          simp only [zipCompare, specLexLt, if_neg hcl, if_neg hlc,
            if_pos rfl, List.zip_cons_cons, List.length_cons,
            Nat.succ_lt_succ_iff]
          exact ih ls

/-- Order `specLexLt` is irreflexive. -/
theorem specLexLt_irrefl : ∀ l : List Nat, specLexLt l l = false := by
  intro l
  induction l with
  | nil => rfl
  | cons c cs ih => simp [specLexLt, ih]

/-- Order `specLexLt` is trichotomous. -/
theorem specLexLt_trichotomy (cs : List Nat) :
    ∀ ls : List Nat,
      specLexLt cs ls = true ∨ specLexLt ls cs = true ∨ cs = ls := by
  induction cs with
  | nil =>
    intro ls
    cases ls with
    | nil => exact Or.inr (Or.inr rfl)
    | cons l ls => exact Or.inl rfl
  | cons c cs ih =>
    intro ls
    cases ls with
    | nil => exact Or.inr (Or.inl rfl)
    | cons l ls =>
      rcases Nat.lt_trichotomy c l with hcl | heq | hlc
      · exact Or.inl (by simp [specLexLt, hcl])
      · subst heq
        rcases ih ls with h | h | h
        · exact Or.inl (by simp [specLexLt, h])
        · exact Or.inr (Or.inl (by simp [specLexLt, h]))
        · exact Or.inr (Or.inr (by rw [h]))
      · exact Or.inr (Or.inl (by simp [specLexLt, hlc]))

/-- C6.  `needs_upgrade` computes the strict component-wise
(lexicographic) semver order on the parsed versions: it is true exactly
when the latest version is component-wise greater, false on equal
version strings, trichotomous up to equal parses, and true when the
latest version strictly extends the current one, as in the spec's
chain 1.0.0 < 1.0.1 < 1.1.0 < 2.0.0 and 1.0.0 < 1.0.0.1. -/
theorem needs_upgrade_correct :
    (∀ current latest : String,
      needs_upgrade current latest =
        specLexLt (parse_version current) (parse_version latest)) ∧
    (∀ v : String, needs_upgrade v v = false) ∧
    (∀ current latest : String,
      needs_upgrade current latest = true ∨
      needs_upgrade latest current = true ∨
      parse_version current = parse_version latest) ∧
    needs_upgrade "1.0.0" "1.0.1" = true ∧
    needs_upgrade "1.0.1" "1.1.0" = true ∧
    needs_upgrade "1.1.0" "2.0.0" = true ∧
    needs_upgrade "1.0.0" "2.0.0" = true ∧
    needs_upgrade "1.0.0" "1.0.0" = false ∧
    needs_upgrade "2.0.0" "1.0.0" = false ∧
    needs_upgrade "1.0.0" "1.0.0.1" = true := by
  have hmain : ∀ current latest : String,
      needs_upgrade current latest =
        specLexLt (parse_version current) (parse_version latest) := by
    intro current latest
    unfold needs_upgrade
    exact zipCompare_loop_eq (parse_version current) (parse_version latest)
  refine ⟨hmain, ?_, ?_, by decide, by decide, by decide, by decide,
    by decide, by decide, by decide⟩
  · intro v
    rw [hmain]
    exact specLexLt_irrefl (parse_version v)
  · intro current latest
    rw [hmain, hmain]
    exact specLexLt_trichotomy (parse_version current) (parse_version latest)

/-- A natural-number OR is zero exactly when both operands are zero. -/
theorem nat_or_eq_zero_iff (a b : Nat) : a ||| b = 0 ↔ a = 0 ∧ b = 0 := by
  constructor
  · intro h
    constructor <;> apply Nat.eq_of_testBit_eq <;> intro i <;>
      have hi := congrArg (fun x => Nat.testBit x i) h <;>
      simp only [Nat.testBit_lor, Nat.zero_testBit,
        Bool.or_eq_false_iff] at hi <;>
      simp [hi.1, hi.2]
  · rintro ⟨rfl, rfl⟩
    rfl

/-- The OR-of-XORs accumulator of `constant_time_eq` ends at zero
exactly when it started at zero and every zipped pair is equal. -/
theorem foldl_or_xor_eq_zero (l : List (Nat × Nat)) (acc : Nat) :
    (l.foldl (fun result xy => result ||| (xy.1 ^^^ xy.2)) acc = 0) ↔
      (acc = 0 ∧ ∀ p ∈ l, p.1 = p.2) := by
  induction l generalizing acc with
  | nil => simp
  | cons p l ih =>
    rw [List.foldl_cons, ih]
    rw [nat_or_eq_zero_iff, Nat.xor_eq_zero]
    simp only [List.mem_cons, forall_eq_or_imp]
    tauto

/-- Equal-length lists whose zipped pairs are all equal are equal. -/
theorem zip_pointwise_eq (a : List Nat) :
    ∀ b : List Nat, a.length = b.length →
      (∀ p ∈ a.zip b, p.1 = p.2) → a = b := by
  induction a with
  | nil =>
    intro b hlen _
    cases b with
    | nil => rfl
    | cons y ys => simp at hlen
  | cons x xs ih =>
    intro b hlen hall
    cases b with
    | nil => simp at hlen
    | cons y ys =>
      have hx : x = y := hall (x, y) (by simp)
      have hxs : xs = ys := by
        apply ih ys (by simpa using hlen)
        intro p hp
        exact hall p (by simp [hp])
      rw [hx, hxs]

/-- Every zipped pair of a list with itself is equal. -/
theorem zip_self_pairs_eq (a : List Nat) :
    ∀ p ∈ a.zip a, p.1 = p.2 := by
  induction a with
  | nil => simp
  | cons x xs ih =>
    intro p hp
    rcases (by simpa using hp : p = (x, x) ∨ p ∈ xs.zip xs) with rfl | hmem
    · rfl
    · exact ih p hmem

/-- Comparison `constant_time_eq` is equality on byte lists. -/
theorem constant_time_eq_iff (a b : List Nat) :
    constant_time_eq a b = true ↔ a = b := by
  unfold constant_time_eq
  split_ifs with hlen
  · simp only [Bool.false_eq_true, false_iff]
    intro hab
    exact hlen (by rw [hab])
  · push_neg at hlen
    rw [beq_iff_eq, foldl_or_xor_eq_zero]
    constructor
    · rintro ⟨_, hall⟩
      exact zip_pointwise_eq a b hlen hall
    · rintro rfl
      exact ⟨rfl, zip_self_pairs_eq a⟩

/-- C8.  `verify_signature` accepts a candidate signature exactly when
it equals the hex-encoded HMAC-SHA256 produced by `sign_request` for
the same secret, timestamp and body; in particular every signature
produced by `sign_request` verifies, and any other byte string is
rejected. -/
theorem signature_verification :
    (∀ (secret : List Nat) (timestamp : Int) (body sig : List Nat),
      verify_signature secret timestamp body sig = true ↔
        sig = sign_request secret timestamp body) ∧
    (∀ (secret : List Nat) (timestamp : Int) (body : List Nat),
      verify_signature secret timestamp body
        (sign_request secret timestamp body) = true) := by
  have hmain : ∀ (secret : List Nat) (timestamp : Int) (body sig : List Nat),
      verify_signature secret timestamp body sig = true ↔
        sig = sign_request secret timestamp body := by
    intro secret timestamp body sig
    unfold verify_signature
    rw [constant_time_eq_iff]
    exact eq_comm
  exact ⟨hmain, fun secret timestamp body =>
    (hmain secret timestamp body _).mpr rfl⟩

/-- C9 counterexample: a CRI-O cgroup line — the format
`/kubepods/.../crio-<id>.scope` — is not recognized by the container-id
extraction in docker.rs; it returns no id. -/
theorem container_id_crio_counterexample :
    get_container_id_from_cgroup
      ["0::/kubepods/besteffort/pod42/crio-abc123def456.scope".data] =
      none :=
  rfl

/-- C9 (amended).  Container-id extraction from a cgroup file
recognizes the Docker direct, Docker systemd-cradle, containerd,
CRI-containerd and Podman (libpod) path formats and returns the
embedded container id — in particular the three spec examples each
yield `abc123def456` — but a CRI-O `crio-<id>.scope` path is not
recognized by this extractor (only the separate k8s helper handles
CRI-O). -/
theorem container_id_extraction :
    get_container_id_from_cgroup
        ["1:name=systemd:/system.slice/docker-abc123def456.scope".data] =
      some ("abc123def456".data) ∧
    get_container_id_from_cgroup
        ["5:cpu:/kubepods/burstable/pod123/cri-containerd-abc123def456.scope".data] =
      some ("abc123def456".data) ∧
    get_container_id_from_cgroup
        ["0::/user.slice/user-1000.slice/user@1000.service/libpod-abc123def456.scope".data] =
      some ("abc123def456".data) ∧
    get_container_id_from_cgroup
        ["2:memory:/docker/abc123def456789".data] =
      some ("abc123def456789".data) ∧
    get_container_id_from_cgroup
        ["3:cpu:/system.slice/containerd-abc123def456.scope".data] =
      some ("abc123def456".data) ∧
    get_container_id_from_cgroup
        ["0::/kubepods/besteffort/pod42/crio-abc123def456.scope".data] =
      none :=
  ⟨rfl, rfl, rfl, rfl, rfl, rfl⟩

/-- The `cri-containerd-` branch of `extract_containerd_id` only
returns ids of at least 12 characters. -/
theorem extract_containerd_cri_length (path id : List Char)
    (h : extract_containerd_id.extract_containerd_id_cri path = some id) :
    12 ≤ id.length := by
  simp only [extract_containerd_id.extract_containerd_id_cri] at h
  split_ifs at h with h1 h2
  all_goals
    first
      | (injection h with h'; subst h'; exact h2)
      | exact Option.noConfusion h

/-- C10.  Every container id returned by the systemd, containerd and
podman extractors has at least 12 characters; a path whose candidate id
segment is shorter — such as `docker-short.scope` — yields no id at
all. -/
theorem extractor_id_min_length :
    (∀ path id : List Char,
      extract_docker_systemd_id path = some id → 12 ≤ id.length) ∧
    (∀ path id : List Char,
      extract_containerd_id path = some id → 12 ≤ id.length) ∧
    (∀ path id : List Char,
      extract_podman_id path = some id → 12 ≤ id.length) ∧
    extract_docker_systemd_id ("/system.slice/docker-short.scope".data) =
      none := by
  refine ⟨?_, ?_, ?_, rfl⟩
  · intro path id h
    simp only [extract_docker_systemd_id] at h
    split_ifs at h with h1 h2
    all_goals
      first
        | (injection h with h'; subst h'; exact h2)
        | exact Option.noConfusion h
  · intro path id h
    simp only [extract_containerd_id] at h
    split_ifs at h with h1 h2
    all_goals
      first
        | (injection h with h'; subst h'; exact h2)
        | exact extract_containerd_cri_length path id h
        | exact Option.noConfusion h
  · intro path id h
    simp only [extract_podman_id] at h
    split_ifs at h with h1 h2
    all_goals
      first
        | (injection h with h'; subst h'; exact h2)
        | exact Option.noConfusion h

/-- C10 witness: the docker-systemd extractor at a concrete path
returns a 12-character id, which indeed has at least 12 characters. -/
theorem extractor_id_min_length_witness :
    12 ≤ ("abc123def456".data).length :=
  extractor_id_min_length.1
    ("/system.slice/docker-abc123def456.scope".data)
    ("abc123def456".data) rfl

end Sennet
